import Mathlib

/-!
# Chat client service (`pkg/client2/chatClientService.go`)

A shallow embedding of the client-side service of the chat server: the
identity record with its registration flag, the poll loop `receiveMessages`
with its filter `checkResponse`, the buffered `Output` channel and its
non-blocking drain `PollMessages`.

Conventions of the embedding.

* Go `string` values that hold text (names, tokens, message contents) are Lean
  `String`s; a request or response body (`[]byte`) is a list of byte values.
* A method with a pointer receiver becomes a function from the client record
  to the updated client record (and the returned value, if any).
* `sync.Mutex`, `sync.Cond` and `http.Client` carry no data of their own and
  are not fields of the record; a goroutine that would block is represented by
  an explicit outcome of the function that blocks.
* `encoding/json` and the HTTP transport are outside the repository: the JSON
  decoder is a parameter of every function that calls it, and the transport is
  represented by the results it hands back.
-/

namespace ChatClientService

/-! ## Data model -/

/-- A body as read from the wire, one number per byte. -/
abbrev Body := List Nat

/-- The bytes of an ASCII text. -/
def bytesOf (s : String) : Body := s.data.map Char.toNat

/-- The inbound wire entity `Response`. Its declaration is not among the
sources; the fields are the two the service reads, `Name` and `Content`. -/
structure Response where
  Name : String
  Content : String
deriving DecidableEq, Repr

/-- The result of `json.Decoder.Decode(&response)`: the (possibly partly
filled) target and the error, if any. -/
abbrev JsonDecode := Body → Response → Response × Option String

/-- A buffered Go channel of responses: the buffered items, oldest first, the
capacity given to `make`, and whether `close` was called. -/
structure Chan where
  buf : List Response
  cap : Nat
  closed : Bool
deriving DecidableEq, Repr

/-- The data fields of `ChatClient` that the service reads or writes. The
declaration of the struct is not among the sources; the fields are those named
in `NewClient` and in the methods. -/
structure ChatClient where
  clientName : String
  clientId : String
  authToken : String
  Output : Chan
  Registered : Bool
  url : String
deriving DecidableEq, Repr

/-- The reserved name of the inactivity kick: `const inactiveFlag`. -/
def inactiveFlag : String := "inactive"

/-- Constructor `NewClient(server)`: the record as built by the constructor. The token
produced by `shared.GenerateSecureToken(32)` is the parameter `token`; the
fields the composite literal does not mention have their zero value. -/
def NewClient (token : String) (server : String) : ChatClient :=
  { clientId := token
    Output := { buf := [], cap := 10000, closed := false }
    Registered := false
    url := server
    clientName := ""
    authToken := "" }

/-! ## Decoding, registration, filter -/

/-- Function `DecodeToResponse(body)`: decodes into a zero `Response`; returns the
response together with the decoder's error. -/
def DecodeToResponse (dec : JsonDecode) (body : Body) : Response × Option String :=
  let response : Response := { Name := "", Content := "" }
  let (response, err) := dec body response
  match err with
  | some e => (response, some e)
  | none => (response, none)

/-- Method `(c *ChatClient) unregister()`: clears the registration flag and
nothing else. -/
def unregister (c : ChatClient) : ChatClient :=
  { c with Registered := false }

/-- Method `(c *ChatClient) register(body)`: the updated client and the returned
error (`none` is Go's `nil`). -/
def register (dec : JsonDecode) (c : ChatClient) (body : Body) : ChatClient × Option String :=
  match DecodeToResponse dec body with
  | (_, some err) => (c, some (err ++ ": Fehler beim Lesen des Bodies ist aufgetreten: "))
  | (rsp, none) =>
    let c := { c with clientName := rsp.Name }
    let c := { c with authToken := rsp.Content }
    let c := { c with Registered := true }
    (c, none)

/-- Method `(c *ChatClient) checkResponse(rsp)`: the updated client and the verdict. -/
def checkResponse (c : ChatClient) (rsp : Response) : ChatClient × Bool :=
  if rsp.Content == "" then
    (c, false)
  else if rsp.Name == inactiveFlag then
    (unregister c, false)
  else
    (c, true)

/-! ## Poll loop -/

/-- Go's `unicode.IsSpace`: the white-space code points of Unicode. -/
def isSpace (ch : Char) : Bool :=
  let n := ch.toNat
  n == 0x09 || n == 0x0A || n == 0x0B || n == 0x0C || n == 0x0D || n == 0x20 ||
  n == 0x85 || n == 0xA0 || n == 0x1680 || (0x2000 ≤ n && n ≤ 0x200A) ||
  n == 0x2028 || n == 0x2029 || n == 0x202F || n == 0x205F || n == 0x3000

/-- Go's `strings.TrimSpace`: the text without its leading and trailing white
space. -/
def TrimSpace (s : String) : String :=
  ⟨((s.data.dropWhile isSpace).reverse.dropWhile isSpace).reverse⟩

/-- What one poll gets back from the transport: either `c.GetRequest(url)`
returned an error, or it returned a response with a status code, whose body
`io.ReadAll` then reads (with an error or in full). -/
inductive PollResult where
  | requestError (err : String)
  | response (StatusCode : Nat) (body : Except String Body)

/-- The constant `http.StatusOK`. -/
def StatusOK : Nat := 200

/-- The outcome of the statement `ch <- r` for a goroutine with no receiver
waiting: the item is buffered, or the sender blocks on a full buffer, or the
channel is closed and the send panics. -/
inductive SendResult where
  | sent (ch : Chan)
  | blocks
  | panics
deriving DecidableEq, Repr

/-- The send statement `ch <- r`. -/
def Chan.send (ch : Chan) (r : Response) : SendResult :=
  if ch.closed then .panics
  else if ch.buf.length < ch.cap then .sent { ch with buf := ch.buf ++ [r] }
  else .blocks

/-- Where the goroutine running `receiveMessages` stands once the poll results
provided to it are used up or it can go no further. -/
inductive LoopStatus where
  /-- The function returned: the loop has ended for good. -/
  | returned
  /-- Blocked in `CheckRegistered`, in `c.Cond.Wait()`. -/
  | waitRegistered
  /-- Inside `c.GetRequest(url)`: no further poll result was provided. -/
  | waitPoll
  /-- Blocked in `c.Output <- &rsp` on a full buffer. -/
  | blockedOnSend (rsp : Response)
  /-- Panicked in `c.Output <- &rsp` on a closed channel. -/
  | panicked
deriving DecidableEq, Repr

/-- One iteration of the `for` loop of `receiveMessages`, given the result of
its poll: the updated client and, unless the loop goes on to its next
iteration (`none`), where the goroutine ends up. -/
def pollCycle (dec : JsonDecode) (c : ChatClient) (p : PollResult) :
    ChatClient × Option LoopStatus :=
  -- c.CheckRegistered()
  if !c.Registered then (c, some .waitRegistered) else
  match p with
  | .requestError _ => (unregister c, some .returned)
  | .response status body =>
    if status != StatusOK then (c, some .returned) else
    match body with
    | .error _ => (c, some .returned)
    | .ok body =>
      match DecodeToResponse dec body with
      | (rsp, err) =>
        if TrimSpace rsp.Content == "" then (c, some .returned) else
        match err with
        | some _ => (c, some .returned)
        | none =>
          match checkResponse c rsp with
          | (c, true) =>
            match c.Output.send rsp with
            | .sent ch => ({ c with Output := ch }, none)
            | .blocks => (c, some (.blockedOnSend rsp))
            | .panics => (c, some .panicked)
          | (c, false) => (c, none)

/-- Method `(c *ChatClient) receiveMessages(url)` run against the poll results
`polls`, the n-th being what the n-th poll gets back. -/
def receiveMessages (dec : JsonDecode) : ChatClient → List PollResult → ChatClient × LoopStatus
  | c, [] => if c.Registered then (c, .waitPoll) else (c, .waitRegistered)
  | c, p :: rest =>
    match pollCycle dec c p with
    | (c, none) => receiveMessages dec c rest
    | (c, some st) => (c, st)

/-! ## Output queue -/

/-- A Go slice value; `none` is the nil slice. -/
abbrev Slice (α : Type) := Option (List α)

/-- The built-in `append(s, x)`. -/
def Slice.append {α : Type} : Slice α → α → Slice α
  | none, x => some [x]
  | some xs, x => some (xs ++ [x])

/-- The `for`/`select` loop of `PollMessages` over the buffered items:
a buffered item is received and appended; with nothing buffered the receive
case is taken with `ok = false` on a closed channel and the `default` case on
an open one, and both return `result`. Yields the items left in the buffer and
the returned slice. -/
def PollMessages.loop (closed : Bool) : List Response → Slice Response →
    List Response × Slice Response
  | [], result => if closed then ([], result) else ([], result)
  | msg :: rest, result => PollMessages.loop closed rest (Slice.append result msg)

/-- Method `(c *ChatClient) PollMessages()`: the client with its drained channel and
the returned slice. -/
def PollMessages (c : ChatClient) : ChatClient × Slice Response :=
  let result : Slice Response := some []
  match PollMessages.loop c.Output.closed c.Output.buf result with
  | (buf, result) => ({ c with Output := { c.Output with buf := buf } }, result)

/-- The items `rs` sent on the channel one after the other; `none` when one of
the sends does not complete. -/
def Chan.sendAll : Chan → List Response → Option Chan
  | ch, [] => some ch
  | ch, r :: rs =>
    match ch.send r with
    | .sent ch => Chan.sendAll ch rs
    | _ => none

/-! ## Sequences of calls on the identity -/

/-- A call of one of the three methods that write the identity fields. -/
inductive Call where
  | register (body : Body)
  | unregister
  | checkResponse (rsp : Response)

/-- The client after the call. -/
def Call.apply (dec : JsonDecode) (c : ChatClient) : Call → ChatClient
  | .register body => (ChatClientService.register dec c body).1
  | .unregister => ChatClientService.unregister c
  | .checkResponse rsp => (ChatClientService.checkResponse c rsp).1

/-- The client after the calls, made in order. -/
def runCalls (dec : JsonDecode) (c : ChatClient) (calls : List Call) : ChatClient :=
  calls.foldl (Call.apply dec) c

/-- The response of the latest `register` call among `calls` whose body
decoded without error, `last` being the one before the calls. -/
def lastRegistration (dec : JsonDecode) (last : Option Response) : List Call → Option Response
  | [] => last
  | .register body :: calls =>
    match DecodeToResponse dec body with
    | (rsp, none) => lastRegistration dec (some rsp) calls
    | (_, some _) => lastRegistration dec last calls
  | _ :: calls => lastRegistration dec last calls

/-! ## Command parsing -/

/-- Modelled from the spec: the outbound wire entity `Message{plugin, content,
clientId}` of section 3; its declaration is not among the sources. -/
structure Message where
  Plugin : String
  Content : String
  ClientId : String
deriving DecidableEq, Repr

/-- Modelled from the spec: the command prefix marker of section 4.4, which the
tested inputs (`/help`, `/users`, `/private`) show to be the slash. -/
def commandMarker : Char := '/'

/-- Modelled from the spec: the default command of section 4.4 (broadcast), as
the tested inputs name it. -/
def defaultPlugin : String := "/broadcast"

/-- Modelled from the spec: "trim trailing whitespace/newline" of section
4.4. -/
def trimTrailing (cs : List Char) : List Char :=
  (cs.reverse.dropWhile isSpace).reverse

/-- Modelled from the spec: `extractInputToMessage` of package `client`, of
which only the test is among the sources, after section 4.4. The input is
trimmed at its end. Its first white-space-delimited token is the text up to
the first white space, white space before it skipped. If that token begins
with the command prefix it becomes `Plugin`, and the text after it up to the
next white-space boundary, when there is any, becomes `ClientId`; otherwise
`Plugin` is the default command and `Content` the whole trimmed input. The
parameter `ownId` is the sender's own id, which section 3 names as the other
value `ClientId` may carry. The spec does not say what `Content` is for a
command; the model puts the text after the command token there. -/
def extractInputToMessage (ownId : String) (input : String) : Message :=
  let trimmed := trimTrailing input.data
  let start := trimmed.dropWhile isSpace
  let token := start.takeWhile (fun ch => !isSpace ch)
  if token.head? = some commandMarker then
    let text := (start.dropWhile (fun ch => !isSpace ch)).dropWhile isSpace
    let param := text.takeWhile (fun ch => !isSpace ch)
    { Plugin := ⟨token⟩
      Content := ⟨text⟩
      ClientId := if param = [] then ownId else ⟨param⟩ }
  else
    { Plugin := defaultPlugin
      Content := ⟨trimmed⟩
      ClientId := ownId }

/-- The white-space-delimited tokens of a text, in order (as `strings.Fields`
yields them): `cur` is the token being read. -/
def tokens.go (cur : List Char) : List Char → List (List Char)
  | [] => if cur = [] then [] else [cur]
  | ch :: cs =>
    if isSpace ch then
      if cur = [] then tokens.go [] cs else cur :: tokens.go [] cs
    else tokens.go (cur ++ [ch]) cs

/-- The white-space-delimited tokens of a text, in order. -/
def tokens (cs : List Char) : List (List Char) := tokens.go [] cs

/-- The decoder's behaviour on the bodies used as concrete inputs in this
file: what `encoding/json` yields for these JSON texts when decoding into a
`Response` whose fields are tagged `name` and `content`. Every other body is
answered with a syntax error and the target left as it was. -/
def sampleJson : JsonDecode := fun body into =>
  if body = bytesOf "\x7b\"name\":\"authToken\",\"content\":\"T0k3n\"\x7d" then
    ({ Name := "authToken", Content := "T0k3n" }, none)
  else if body = bytesOf "\x7b\x7d" then
    (into, none)
  else if body = bytesOf "\x7b\"name\":\"Max\",\"content\":\"\"\x7d" then
    ({ into with Name := "Max" }, none)
  else if body = bytesOf "\x7b\"name\":\"Max\",\"content\":\"hello\"\x7d" then
    ({ Name := "Max", Content := "hello" }, none)
  else if body = bytesOf "\x7b\"name\":\"inactive\",\"content\":\"x\"\x7d" then
    ({ Name := "inactive", Content := "x" }, none)
  else if body = bytesOf "\x7b\"name\":\"inactive\",\"content\":\" \"\x7d" then
    ({ Name := "inactive", Content := " " }, none)
  else if body = bytesOf "\x7b\"name\":7,\"content\":\"hello\"\x7d" then
    ({ into with Content := "hello" },
      some "json: cannot unmarshal number into Go struct field Response.name of type string")
  else
    (into, some "invalid character in literal null")

/-- A registered client with an empty queue, used as a concrete input. -/
def sampleClient : ChatClient :=
  { clientName := "Arndt"
    clientId := "clientId-DyGWNnLrLWnbuhf"
    authToken := "authId-5EDyGWNnLrLWnbuhf"
    Output := { buf := [], cap := 10000, closed := false }
    Registered := true
    url := "http://localhost:8080" }

/-! ## Registration -/

/-- C1: when the body decodes without error to a response with name `N` and
content `T`, `register` returns no error, and the resulting client has
`clientName = N`, `authToken = T` and `Registered = true`; the other fields are
those of the client it was called on. -/
theorem register_success (dec : JsonDecode) (c : ChatClient) (body : Body)
    (N T : String)
    (hdec : DecodeToResponse dec body = ({ Name := N, Content := T }, none)) :
    (register dec c body).2 = none ∧
    (register dec c body).1.clientName = N ∧
    (register dec c body).1.authToken = T ∧
    (register dec c body).1.Registered = true ∧
    (register dec c body).1.clientId = c.clientId ∧
    (register dec c body).1.Output = c.Output ∧
    (register dec c body).1.url = c.url := by
  simp [register, hdec]

/-- Witness of C1: an unregistered, freshly built client registers with the
body `{"name":"authToken","content":"T0k3n"}`. -/
theorem register_success_witness :
    DecodeToResponse sampleJson
        (bytesOf "\x7b\"name\":\"authToken\",\"content\":\"T0k3n\"\x7d")
      = ({ Name := "authToken", Content := "T0k3n" }, none) ∧
    (register sampleJson (NewClient "id" "srv")
        (bytesOf "\x7b\"name\":\"authToken\",\"content\":\"T0k3n\"\x7d")).1.authToken = "T0k3n" ∧
    (register sampleJson (NewClient "id" "srv")
        (bytesOf "\x7b\"name\":\"authToken\",\"content\":\"T0k3n\"\x7d")).1.Registered = true :=
  have h : DecodeToResponse sampleJson
        (bytesOf "\x7b\"name\":\"authToken\",\"content\":\"T0k3n\"\x7d")
      = ({ Name := "authToken", Content := "T0k3n" }, none) := by decide
  have w := register_success sampleJson (NewClient "id" "srv") _ "authToken" "T0k3n" h
  ⟨h, w.2.2.1, w.2.2.2.1⟩

/-- C2: when `DecodeToResponse` returns an error for the body, `register`
returns an error and the client is unchanged (so `clientName`, `authToken`,
`clientId` and `Registered` keep their values). -/
theorem register_decode_error (dec : JsonDecode) (c : ChatClient) (body : Body)
    (herr : (DecodeToResponse dec body).2 ≠ none) :
    (register dec c body).2 ≠ none ∧ (register dec c body).1 = c := by
  unfold register
  rcases hd : DecodeToResponse dec body with ⟨rsp, _ | e⟩
  · rw [hd] at herr
    exact absurd rfl herr
  · simp

/-- Witness of C2: an unregistered client handed a body that is no JSON stays
unregistered and gets an error. -/
theorem register_decode_error_witness :
    (DecodeToResponse sampleJson (bytesOf "not json")).2 ≠ none ∧
    (register sampleJson (NewClient "id" "srv") (bytesOf "not json")).2 ≠ none ∧
    (register sampleJson (NewClient "id" "srv") (bytesOf "not json")).1.Registered = false :=
  have h : (DecodeToResponse sampleJson (bytesOf "not json")).2 ≠ none := by decide
  have w := register_decode_error sampleJson (NewClient "id" "srv") (bytesOf "not json") h
  ⟨h, w.1, by rw [w.2]; rfl⟩

/-! ## Filter -/

/-- C3: `checkResponse` is the three-case filter. With empty content it
returns false and leaves the client as it is, whatever the name; otherwise,
with the name `inactive`, it returns false and the client is the one it was
called on with `Registered` set to false; otherwise it returns true and leaves
the client as it is. So it returns true exactly when the content is non-empty
and the name is not `inactive`. -/
theorem checkResponse_filter (c : ChatClient) (r : Response) :
    (r.Content = "" → checkResponse c r = (c, false)) ∧
    (r.Content ≠ "" → r.Name = "inactive" →
      checkResponse c r = ({ c with Registered := false }, false) ∧
      (checkResponse c r).1.Registered = false) ∧
    (r.Content ≠ "" → r.Name ≠ "inactive" → checkResponse c r = (c, true)) ∧
    ((checkResponse c r).2 = true ↔ r.Content ≠ "" ∧ r.Name ≠ "inactive") := by
  refine ⟨?_, ?_, ?_, ?_⟩
  · intro h
    simp [checkResponse, h]
  · intro h hn
    simp [checkResponse, h, hn, inactiveFlag, unregister]
  · intro h hn
    simp [checkResponse, h, hn, inactiveFlag]
  · by_cases h : r.Content = ""
    · simp [checkResponse, h]
    · by_cases hn : r.Name = "inactive"
      · simp [checkResponse, h, hn, inactiveFlag]
      · simp [checkResponse, h, hn, inactiveFlag]

/-- The three cases of C3 at concrete responses, on a registered client. -/
theorem checkResponse_filter_witness :
    checkResponse sampleClient { Name := "inactive", Content := "" } = (sampleClient, false) ∧
    (checkResponse sampleClient { Name := "inactive", Content := "x" }).1.Registered = false ∧
    checkResponse sampleClient { Name := "Max", Content := "x" } = (sampleClient, true) :=
  ⟨(checkResponse_filter sampleClient { Name := "inactive", Content := "" }).1 rfl,
   ((checkResponse_filter sampleClient { Name := "inactive", Content := "x" }).2.1
      (by decide) rfl).2,
   (checkResponse_filter sampleClient { Name := "Max", Content := "x" }).2.2.1
      (by decide) (by decide)⟩

/-! ## Unregistration -/

/-- C7: `unregister` yields the client it was called on with `Registered` set
to false: `clientId`, `clientName`, `authToken`, the `Output` queue and `url`
are as they were, and a second `unregister` changes nothing more. -/
theorem unregister_frame_idempotent (c : ChatClient) :
    unregister c = { c with Registered := false } ∧
    (unregister c).Registered = false ∧
    (unregister c).clientId = c.clientId ∧
    (unregister c).clientName = c.clientName ∧
    (unregister c).authToken = c.authToken ∧
    (unregister c).Output = c.Output ∧
    (unregister c).url = c.url ∧
    unregister (unregister c) = unregister c :=
  ⟨rfl, rfl, rfl, rfl, rfl, rfl, rfl, rfl⟩

/-! ## Output queue -/

/-- The drain loop moves every buffered item, in order, behind the items
already collected. -/
theorem PollMessages.loop_eq (closed : Bool) (buf acc : List Response) :
    PollMessages.loop closed buf (some acc) = ([], some (acc ++ buf)) := by
  induction buf generalizing acc with
  | nil => simp [PollMessages.loop]
  | cons msg rest ih => simp [PollMessages.loop, Slice.append, ih]

/-- A completed sequence of sends appends the items, in order, to the buffer
and leaves capacity and closed flag alone. -/
theorem Chan.sendAll_some (ch ch2 : Chan) (rs : List Response)
    (h : Chan.sendAll ch rs = some ch2) :
    ch2 = { ch with buf := ch.buf ++ rs } := by
  induction rs generalizing ch with
  | nil =>
    simp [Chan.sendAll] at h
    simp [← h]
  | cons r rs ih =>
    unfold Chan.sendAll at h
    cases hs : ch.send r with
    | sent ch1 =>
      rw [hs] at h
      have h1 : ch1 = { ch with buf := ch.buf ++ [r] } := by
        unfold Chan.send at hs
        split_ifs at hs
        cases hs
        rfl
      rw [ih ch1 h, h1]
      simp
    | blocks =>
      rw [hs] at h
      cases h
    | panics =>
      rw [hs] at h
      cases h

/-- On an open channel with room for them, all sends complete. -/
theorem Chan.sendAll_room (ch : Chan) (rs : List Response)
    (hopen : ch.closed = false) (hroom : ch.buf.length + rs.length ≤ ch.cap) :
    ∃ ch2, Chan.sendAll ch rs = some ch2 := by
  induction rs generalizing ch with
  | nil => exact ⟨ch, rfl⟩
  | cons r rs ih =>
    have hlt : ch.buf.length < ch.cap := by
      simp only [List.length_cons] at hroom
      omega
    have hs : ch.send r = .sent { ch with buf := ch.buf ++ [r] } := by
      simp [Chan.send, hopen, hlt]
    simp only [Chan.sendAll, hs]
    apply ih
    · exact hopen
    · simp only [List.length_append, List.length_cons, List.length_nil] at hroom ⊢
      omega

/-- C5: `PollMessages` returns exactly the buffered responses, oldest first,
as a non-nil slice, and leaves the queue empty; on an empty queue the returned
slice is the empty, non-nil one. Responses sent on the queue and then drained
come back behind the ones already buffered, in the order they were sent, and
on an open queue with room for them the sends do complete. -/
theorem PollMessages_drains (c : ChatClient) :
    PollMessages c = ({ c with Output := { c.Output with buf := [] } }, some c.Output.buf) ∧
    (c.Output.buf = [] → (PollMessages c).2 = some []) ∧
    (PollMessages c).2 ≠ none ∧
    (PollMessages (PollMessages c).1).2 = some [] ∧
    (∀ (rs : List Response) (ch : Chan), c.Output.sendAll rs = some ch →
      (PollMessages { c with Output := ch }).2 = some (c.Output.buf ++ rs) ∧
      (PollMessages { c with Output := ch }).1.Output.buf = []) ∧
    (∀ rs : List Response, c.Output.closed = false →
      c.Output.buf.length + rs.length ≤ c.Output.cap →
      ∃ ch, c.Output.sendAll rs = some ch) := by
  have h : PollMessages c
      = ({ c with Output := { c.Output with buf := [] } }, some c.Output.buf) := by
    simp [PollMessages, PollMessages.loop_eq]
  refine ⟨h, ?_, ?_, ?_, ?_, ?_⟩
  · intro he
    rw [h, he]
  · rw [h]
    simp
  · simp [PollMessages, PollMessages.loop_eq]
  · intro rs ch hs
    have hch := Chan.sendAll_some _ _ _ hs
    subst hch
    simp [PollMessages, PollMessages.loop_eq]
  · intro rs hopen hroom
    exact Chan.sendAll_room _ _ hopen hroom

/-- C5 at concrete queues: two responses pushed onto the empty queue of a new
client are drained in push order, and the empty queue drains to the empty
slice. -/
theorem PollMessages_drains_witness :
    Chan.sendAll (NewClient "id" "srv").Output
        [{ Name := "Max", Content := "one" }, { Name := "Eva", Content := "two" }]
      = some { buf := [{ Name := "Max", Content := "one" }, { Name := "Eva", Content := "two" }]
               cap := 10000
               closed := false } ∧
    (PollMessages { NewClient "id" "srv" with
        Output := { buf := [{ Name := "Max", Content := "one" },
                            { Name := "Eva", Content := "two" }]
                    cap := 10000
                    closed := false } }).2
      = some [{ Name := "Max", Content := "one" }, { Name := "Eva", Content := "two" }] ∧
    (PollMessages (NewClient "id" "srv")).2 = some [] :=
  have hs : Chan.sendAll (NewClient "id" "srv").Output
        [{ Name := "Max", Content := "one" }, { Name := "Eva", Content := "two" }]
      = some { buf := [{ Name := "Max", Content := "one" }, { Name := "Eva", Content := "two" }]
               cap := 10000
               closed := false } := by decide
  ⟨hs, ((PollMessages_drains (NewClient "id" "srv")).2.2.2.2.1 _ _ hs).1,
   (PollMessages_drains (NewClient "id" "srv")).2.1 rfl⟩

/-! ## Identity invariant -/

/-- Along any sequence of calls, two facts are kept: a registered client has a
latest successful registration, and whenever there is one the client holds its
name and content as `clientName` and `authToken`. -/
theorem runCalls_lastRegistration (dec : JsonDecode) (calls : List Call) :
    ∀ (c : ChatClient) (last : Option Response),
      (c.Registered = true → last ≠ none) →
      (∀ r, last = some r → c.authToken = r.Content ∧ c.clientName = r.Name) →
      ((runCalls dec c calls).Registered = true → lastRegistration dec last calls ≠ none) ∧
      (∀ r, lastRegistration dec last calls = some r →
        (runCalls dec c calls).authToken = r.Content ∧
        (runCalls dec c calls).clientName = r.Name) := by
  induction calls with
  | nil =>
    intro c last h1 h2
    exact ⟨h1, h2⟩
  | cons call calls ih =>
    intro c last h1 h2
    cases call with
    | register body =>
      rcases hd : DecodeToResponse dec body with ⟨rsp, _ | e⟩
      · have hc : Call.apply dec c (.register body)
            = { c with clientName := rsp.Name, authToken := rsp.Content, Registered := true } := by
          simp [Call.apply, register, hd]
        have hl : lastRegistration dec last (.register body :: calls)
            = lastRegistration dec (some rsp) calls := by
          simp [lastRegistration, hd]
        simp only [runCalls, List.foldl_cons] at ih ⊢
        rw [hc, hl]
        apply ih
        · intro _
          simp
        · intro r hr
          cases hr
          exact ⟨rfl, rfl⟩
      · have hc : Call.apply dec c (.register body) = c := by
          simp [Call.apply, register, hd]
        have hl : lastRegistration dec last (.register body :: calls)
            = lastRegistration dec last calls := by
          simp [lastRegistration, hd]
        simp only [runCalls, List.foldl_cons] at ih ⊢
        rw [hc, hl]
        exact ih c last h1 h2
    | unregister =>
      simp only [runCalls, List.foldl_cons, lastRegistration] at ih ⊢
      apply ih
      · intro h
        simp [Call.apply, unregister] at h
      · intro r hr
        exact h2 r hr
    | checkResponse rsp =>
      simp only [runCalls, List.foldl_cons, lastRegistration] at ih ⊢
      apply ih
      · intro h
        apply h1
        simp only [Call.apply, checkResponse, unregister] at h
        by_cases he : (rsp.Content == "") = true
        · simpa [he] using h
        · by_cases hn : (rsp.Name == inactiveFlag) = true
          · simp [he, hn] at h
          · simpa [he, hn] using h
      · intro r hr
        have := h2 r hr
        simp only [Call.apply, checkResponse, unregister]
        split_ifs <;> exact this

/-- C6, as the code has it: in every state reached from the one built by
`NewClient` through `register`, `unregister` and `checkResponse` calls, a
registered client has a latest successfully decoded registration response, and
its `authToken` is that response's content and its `clientName` that
response's name. Nothing makes the content non-empty. -/
theorem registered_authToken_is_last_registration (dec : JsonDecode)
    (token server : String) (calls : List Call)
    (hreg : (runCalls dec (NewClient token server) calls).Registered = true) :
    ∃ r, lastRegistration dec none calls = some r ∧
      (runCalls dec (NewClient token server) calls).authToken = r.Content ∧
      (runCalls dec (NewClient token server) calls).clientName = r.Name := by
  have h := runCalls_lastRegistration dec calls (NewClient token server) none
    (by simp [NewClient]) (by simp)
  rcases hl : lastRegistration dec none calls with _ | r
  · exact absurd hl (h.1 hreg)
  · exact ⟨r, rfl, h.2 r hl⟩

/-- Witness of the amended C6: register, get kicked for inactivity, register
again with another body; the token is the content of the second response. -/
theorem registered_authToken_is_last_registration_witness :
    (runCalls sampleJson (NewClient "id" "srv")
      [.register (bytesOf "\x7b\"name\":\"Max\",\"content\":\"hello\"\x7d"),
       .checkResponse { Name := "inactive", Content := "x" },
       .register (bytesOf "\x7b\"name\":\"authToken\",\"content\":\"T0k3n\"\x7d")]).Registered
      = true ∧
    ∃ r, lastRegistration sampleJson none
      [.register (bytesOf "\x7b\"name\":\"Max\",\"content\":\"hello\"\x7d"),
       .checkResponse { Name := "inactive", Content := "x" },
       .register (bytesOf "\x7b\"name\":\"authToken\",\"content\":\"T0k3n\"\x7d")] = some r ∧
      (runCalls sampleJson (NewClient "id" "srv")
        [.register (bytesOf "\x7b\"name\":\"Max\",\"content\":\"hello\"\x7d"),
         .checkResponse { Name := "inactive", Content := "x" },
         .register (bytesOf "\x7b\"name\":\"authToken\",\"content\":\"T0k3n\"\x7d")]).authToken
        = r.Content ∧
      (runCalls sampleJson (NewClient "id" "srv")
        [.register (bytesOf "\x7b\"name\":\"Max\",\"content\":\"hello\"\x7d"),
         .checkResponse { Name := "inactive", Content := "x" },
         .register (bytesOf "\x7b\"name\":\"authToken\",\"content\":\"T0k3n\"\x7d")]).clientName
        = r.Name :=
  have h : (runCalls sampleJson (NewClient "id" "srv")
      [.register (bytesOf "\x7b\"name\":\"Max\",\"content\":\"hello\"\x7d"),
       .checkResponse { Name := "inactive", Content := "x" },
       .register (bytesOf "\x7b\"name\":\"authToken\",\"content\":\"T0k3n\"\x7d")]).Registered
      = true := by decide
  ⟨h, registered_authToken_is_last_registration sampleJson "id" "srv" _ h⟩

/-- Counterexample to C6 as stated: the body `{}` decodes without error to the
response with empty name and empty content, so `register` on a new client
leaves it registered with an empty `authToken`. -/
theorem registered_with_empty_authToken :
    DecodeToResponse sampleJson (bytesOf "\x7b\x7d") = ({ Name := "", Content := "" }, none) ∧
    (runCalls sampleJson (NewClient "id" "srv") [.register (bytesOf "\x7b\x7d")]).Registered
      = true ∧
    (runCalls sampleJson (NewClient "id" "srv") [.register (bytesOf "\x7b\x7d")]).authToken
      = "" := by
  decide

/-! ## Poll loop -/

/-- A text with something left after trimming is not empty. -/
theorem ne_empty_of_TrimSpace_ne_empty (s : String) (h : TrimSpace s ≠ "") : s ≠ "" := by
  intro hs
  apply h
  rw [hs]
  rfl

/-- One poll cycle leaves the buffer of the queue as it is or appends the one
response it decoded, and it appends only a response that has content left
after trimming and a name other than `inactive`. -/
theorem pollCycle_pushes (dec : JsonDecode) (c : ChatClient) (p : PollResult) :
    ∃ pushed : List Response,
      (pollCycle dec c p).1.Output.buf = c.Output.buf ++ pushed ∧
      ∀ r ∈ pushed, TrimSpace r.Content ≠ "" ∧ r.Name ≠ inactiveFlag := by
  unfold pollCycle
  split_ifs with hreg
  · exact ⟨[], by simp⟩
  · cases p with
    | requestError err => exact ⟨[], by simp [unregister]⟩
    | response status body =>
      dsimp only
      split_ifs with hst
      · exact ⟨[], by simp⟩
      · cases body with
        | error e => exact ⟨[], by simp⟩
        | ok body =>
          dsimp only
          rcases DecodeToResponse dec body with ⟨rsp, err⟩
          dsimp only
          split_ifs with htrim
          · exact ⟨[], by simp⟩
          · cases err with
            | some e => exact ⟨[], by simp⟩
            | none =>
              dsimp only
              have htrim2 : TrimSpace rsp.Content ≠ "" := by simpa using htrim
              have hne : rsp.Content ≠ "" := ne_empty_of_TrimSpace_ne_empty _ htrim2
              by_cases hn : rsp.Name = inactiveFlag
              · have hc : checkResponse c rsp = (unregister c, false) := by
                  simp [checkResponse, hne, hn]
                rw [hc]
                exact ⟨[], by simp [unregister]⟩
              · have hc : checkResponse c rsp = (c, true) := by
                  simp [checkResponse, hne, hn]
                rw [hc]
                dsimp only
                unfold Chan.send
                split_ifs
                · exact ⟨[], by simp⟩
                · refine ⟨[rsp], by simp, ?_⟩
                  intro r hr
                  simp only [List.mem_singleton] at hr
                  subst hr
                  exact ⟨htrim2, hn⟩
                · exact ⟨[], by simp⟩

/-- Over a whole run of the loop the buffer of the queue only grows at its
end, and only by responses that have content left after trimming and a name
other than `inactive`. -/
theorem receiveMessages_pushes (dec : JsonDecode) (polls : List PollResult) :
    ∀ c : ChatClient, ∃ pushed : List Response,
      (receiveMessages dec c polls).1.Output.buf = c.Output.buf ++ pushed ∧
      ∀ r ∈ pushed, TrimSpace r.Content ≠ "" ∧ r.Name ≠ inactiveFlag := by
  induction polls with
  | nil =>
    intro c
    refine ⟨[], ?_, by simp⟩
    unfold receiveMessages
    split_ifs <;> simp
  | cons p rest ih =>
    intro c
    obtain ⟨pushed1, hbuf1, hall1⟩ := pollCycle_pushes dec c p
    unfold receiveMessages
    rcases hcyc : pollCycle dec c p with ⟨c1, _ | st⟩
    · rw [hcyc] at hbuf1
      obtain ⟨pushed2, hbuf2, hall2⟩ := ih c1
      refine ⟨pushed1 ++ pushed2, ?_, ?_⟩
      · dsimp only
        rw [hbuf2, hbuf1, List.append_assoc]
      · intro r hr
        rcases List.mem_append.mp hr with h | h
        · exact hall1 r h
        · exact hall2 r h
    · rw [hcyc] at hbuf1
      exact ⟨pushed1, hbuf1, hall1⟩

/-- An unregistered client keeps the loop waiting in `CheckRegistered`: no
poll result is taken and nothing changes. -/
theorem receiveMessages_unregistered (dec : JsonDecode) (c : ChatClient)
    (polls : List PollResult) (hreg : c.Registered = false) :
    receiveMessages dec c polls = (c, .waitRegistered) := by
  cases polls with
  | nil => simp [receiveMessages, hreg]
  | cons p rest => simp [receiveMessages, pollCycle, hreg]

/-- C4, as the code has it. Whatever the starting state and the poll results,
the loop only appends to the queue, and no response it appends has empty
content or the name `inactive`. A poll cycle of a registered client that
receives a response named `inactive` whose content is non-empty after trimming
white space ends with `Registered = false` and the queue unchanged, and the
loop then waits for the next registration. -/
theorem receiveMessages_never_delivers (dec : JsonDecode) (c : ChatClient)
    (polls : List PollResult) :
    (∃ pushed : List Response,
      (receiveMessages dec c polls).1.Output.buf = c.Output.buf ++ pushed ∧
      ∀ r ∈ pushed, r.Content ≠ "" ∧ r.Name ≠ "inactive") ∧
    (∀ (body : Body) (rsp : Response), c.Registered = true →
      DecodeToResponse dec body = (rsp, none) → rsp.Name = "inactive" →
      TrimSpace rsp.Content ≠ "" →
      pollCycle dec c (.response StatusOK (.ok body)) = ({ c with Registered := false }, none) ∧
      (pollCycle dec c (.response StatusOK (.ok body))).1.Registered = false ∧
      (pollCycle dec c (.response StatusOK (.ok body))).1.Output = c.Output ∧
      receiveMessages dec c (.response StatusOK (.ok body) :: polls)
        = ({ c with Registered := false }, .waitRegistered)) := by
  constructor
  · obtain ⟨pushed, hbuf, hall⟩ := receiveMessages_pushes dec polls c
    refine ⟨pushed, hbuf, ?_⟩
    intro r hr
    exact ⟨ne_empty_of_TrimSpace_ne_empty _ (hall r hr).1, (hall r hr).2⟩
  · intro body rsp hreg hdec hname htrim
    have hne : rsp.Content ≠ "" := ne_empty_of_TrimSpace_ne_empty _ htrim
    have hcyc : pollCycle dec c (.response StatusOK (.ok body))
        = ({ c with Registered := false }, none) := by
      simp [pollCycle, hreg, hdec, htrim, checkResponse, hne, hname, inactiveFlag, unregister]
    refine ⟨hcyc, by rw [hcyc], by rw [hcyc], ?_⟩
    rw [receiveMessages, hcyc]
    exact receiveMessages_unregistered dec _ polls rfl

/-- Witness of the amended C4: a registered client polls
`{"name":"inactive","content":"x"}` and then a regular message. The kick
unregisters it, the queue stays empty and the loop waits for a registration
without taking the second poll result. -/
theorem receiveMessages_never_delivers_witness :
    receiveMessages sampleJson sampleClient
      [.response StatusOK (.ok (bytesOf "\x7b\"name\":\"inactive\",\"content\":\"x\"\x7d")),
       .response StatusOK (.ok (bytesOf "\x7b\"name\":\"Max\",\"content\":\"hello\"\x7d"))]
      = ({ sampleClient with Registered := false }, .waitRegistered) :=
  ((receiveMessages_never_delivers sampleJson sampleClient
      [.response StatusOK (.ok (bytesOf "\x7b\"name\":\"Max\",\"content\":\"hello\"\x7d"))]).2
    (bytesOf "\x7b\"name\":\"inactive\",\"content\":\"x\"\x7d")
    { Name := "inactive", Content := "x" }
    (by decide) (by decide) rfl (by decide)).2.2.2

/-- Counterexample to C4 as stated: the response named `inactive` with the
non-empty content `" "` (one blank). Its content is empty after trimming, so
the cycle returns from `receiveMessages` before the filter is reached and the
client is still registered. -/
theorem inactive_blank_content_stays_registered :
    DecodeToResponse sampleJson (bytesOf "\x7b\"name\":\"inactive\",\"content\":\" \"\x7d")
      = ({ Name := "inactive", Content := " " }, none) ∧
    (" " : String) ≠ "" ∧
    sampleClient.Registered = true ∧
    pollCycle sampleJson sampleClient
        (.response StatusOK (.ok (bytesOf "\x7b\"name\":\"inactive\",\"content\":\" \"\x7d")))
      = (sampleClient, some .returned) ∧
    (pollCycle sampleJson sampleClient
        (.response StatusOK
          (.ok (bytesOf "\x7b\"name\":\"inactive\",\"content\":\" \"\x7d")))).1.Registered
      = true := by
  decide

/-- C9, as the code has it: a poll cycle of a registered client with status
200 whose body decodes without error to a response with empty content pushes
nothing and leaves the client as it is, and `receiveMessages` returns in that
cycle: whatever poll results would follow, none of them is processed. -/
theorem empty_content_ends_loop (dec : JsonDecode) (c : ChatClient) (body : Body)
    (rsp : Response) (rest : List PollResult)
    (hreg : c.Registered = true)
    (hdec : DecodeToResponse dec body = (rsp, none))
    (hempty : rsp.Content = "") :
    pollCycle dec c (.response StatusOK (.ok body)) = (c, some .returned) ∧
    receiveMessages dec c (.response StatusOK (.ok body) :: rest) = (c, .returned) := by
  have htrim : TrimSpace rsp.Content = "" := by
    rw [hempty]
    rfl
  have hcyc : pollCycle dec c (.response StatusOK (.ok body)) = (c, some .returned) := by
    simp [pollCycle, hreg, hdec, htrim]
  exact ⟨hcyc, by simp [receiveMessages, hcyc]⟩

/-- Witness of the amended C9: `{"name":"Max","content":""}` followed by a
regular message. -/
theorem empty_content_ends_loop_witness :
    sampleClient.Registered = true ∧
    receiveMessages sampleJson sampleClient
      [.response StatusOK (.ok (bytesOf "\x7b\"name\":\"Max\",\"content\":\"\"\x7d")),
       .response StatusOK (.ok (bytesOf "\x7b\"name\":\"Max\",\"content\":\"hello\"\x7d"))]
      = (sampleClient, .returned) :=
  ⟨rfl, (empty_content_ends_loop sampleJson sampleClient
      (bytesOf "\x7b\"name\":\"Max\",\"content\":\"\"\x7d") { Name := "Max", Content := "" }
      [.response StatusOK (.ok (bytesOf "\x7b\"name\":\"Max\",\"content\":\"hello\"\x7d"))]
      rfl (by decide) rfl).2⟩

/-- Counterexample to C9 as stated: after the cycle that receives
`{"name":"Max","content":""}` the loop has returned, and the well-formed
message of the following cycle is not delivered: the queue stays empty. The
same message polled by a loop that is still running is delivered. -/
theorem empty_content_stops_later_delivery :
    (receiveMessages sampleJson sampleClient
      [.response StatusOK (.ok (bytesOf "\x7b\"name\":\"Max\",\"content\":\"\"\x7d")),
       .response StatusOK (.ok (bytesOf "\x7b\"name\":\"Max\",\"content\":\"hello\"\x7d"))]).2
      = .returned ∧
    (receiveMessages sampleJson sampleClient
      [.response StatusOK (.ok (bytesOf "\x7b\"name\":\"Max\",\"content\":\"\"\x7d")),
       .response StatusOK
         (.ok (bytesOf "\x7b\"name\":\"Max\",\"content\":\"hello\"\x7d"))]).1.Output.buf
      = [] ∧
    (receiveMessages sampleJson sampleClient
      [.response StatusOK
         (.ok (bytesOf "\x7b\"name\":\"Max\",\"content\":\"hello\"\x7d"))]).1.Output.buf
      = [{ Name := "Max", Content := "hello" }] := by
  decide

/-- Every failed poll cycle of a registered client makes `receiveMessages`
return, whatever poll results would follow; the client is unregistered when
the request itself failed, and is left exactly as it was, registered, when the
status is not 200, when the body cannot be read, and when it cannot be
decoded. -/
theorem receiveMessages_failure (dec : JsonDecode) (c : ChatClient) (rest : List PollResult)
    (hreg : c.Registered = true) :
    (∀ err, receiveMessages dec c (.requestError err :: rest) = (unregister c, .returned)) ∧
    (∀ status body, status ≠ StatusOK →
      receiveMessages dec c (.response status body :: rest) = (c, .returned)) ∧
    (∀ err, receiveMessages dec c (.response StatusOK (.error err) :: rest) = (c, .returned)) ∧
    (∀ body, (DecodeToResponse dec body).2 ≠ none →
      receiveMessages dec c (.response StatusOK (.ok body) :: rest) = (c, .returned)) := by
  refine ⟨?_, ?_, ?_, ?_⟩
  · intro err
    simp [receiveMessages, pollCycle, hreg]
  · intro status body hst
    simp [receiveMessages, pollCycle, hreg, hst]
  · intro err
    simp [receiveMessages, pollCycle, hreg]
  · intro body herr
    rcases hd : DecodeToResponse dec body with ⟨rsp, _ | e⟩
    · rw [hd] at herr
      exact absurd rfl herr
    · by_cases ht : TrimSpace rsp.Content = ""
      · simp [receiveMessages, pollCycle, hreg, hd, ht]
      · simp [receiveMessages, pollCycle, hreg, hd, ht]

/-- C10 at its failing inputs: a registered client whose poll is answered with
status 500, or with status 200 and a body that does not decode (with or
without content in the partly filled response), or whose body cannot be read.
In each case `receiveMessages` returns without processing the poll result that
follows, and the client is exactly as before, still registered. Only the
request error unregisters. -/
theorem failed_poll_stays_registered :
    sampleClient.Registered = true ∧
    receiveMessages sampleJson sampleClient
      [.response 500 (.ok []),
       .response StatusOK (.ok (bytesOf "\x7b\"name\":\"Max\",\"content\":\"hello\"\x7d"))]
      = (sampleClient, .returned) ∧
    (DecodeToResponse sampleJson (bytesOf "\x7b\"name\":7,\"content\":\"hello\"\x7d")).2 ≠ none ∧
    receiveMessages sampleJson sampleClient
      [.response StatusOK (.ok (bytesOf "\x7b\"name\":7,\"content\":\"hello\"\x7d")),
       .response StatusOK (.ok (bytesOf "\x7b\"name\":\"Max\",\"content\":\"hello\"\x7d"))]
      = (sampleClient, .returned) ∧
    (DecodeToResponse sampleJson (bytesOf "not json")).2 ≠ none ∧
    receiveMessages sampleJson sampleClient
      [.response StatusOK (.ok (bytesOf "not json")),
       .response StatusOK (.ok (bytesOf "\x7b\"name\":\"Max\",\"content\":\"hello\"\x7d"))]
      = (sampleClient, .returned) ∧
    receiveMessages sampleJson sampleClient
      [.response StatusOK (.error "unexpected EOF"),
       .response StatusOK (.ok (bytesOf "\x7b\"name\":\"Max\",\"content\":\"hello\"\x7d"))]
      = (sampleClient, .returned) ∧
    receiveMessages sampleJson sampleClient
      [.requestError "connection refused",
       .response StatusOK (.ok (bytesOf "\x7b\"name\":\"Max\",\"content\":\"hello\"\x7d"))]
      = ({ sampleClient with Registered := false }, .returned) := by
  decide

/-! ## Command parsing -/

/-- Reading on from a token in progress: the token is completed by the text up
to the next white space, and the remaining tokens are read from there. -/
theorem tokens.go_eq (cs : List Char) :
    ∀ cur : List Char,
      tokens.go cur cs
        = (if cur ++ cs.takeWhile (fun ch => !isSpace ch) = [] then []
           else [cur ++ cs.takeWhile (fun ch => !isSpace ch)])
          ++ tokens.go [] (cs.dropWhile (fun ch => !isSpace ch)) := by
  induction cs with
  | nil =>
    intro cur
    simp [tokens.go]
  | cons ch cs ih =>
    intro cur
    by_cases hsp : isSpace ch = true
    · by_cases hcur : cur = []
      · simp [tokens.go, hsp, hcur]
      · simp [tokens.go, hsp, hcur]
    · simp only [Bool.not_eq_true] at hsp
      simp [tokens.go, hsp, ih (cur ++ [ch])]

/-- White space before the first token plays no part. -/
theorem tokens.go_dropWhile (cs : List Char) :
    tokens.go [] cs = tokens.go [] (cs.dropWhile isSpace) := by
  induction cs with
  | nil => rfl
  | cons ch cs ih =>
    by_cases hsp : isSpace ch = true
    · simp [tokens.go, hsp, List.dropWhile_cons, ih]
    · simp only [Bool.not_eq_true] at hsp
      simp [hsp, List.dropWhile_cons]

/-- What is left after skipping white space does not begin with white
space: if no token starts there, nothing is left. -/
theorem dropWhile_isSpace_nil_of_takeWhile_nil (cs : List Char)
    (h : (cs.dropWhile isSpace).takeWhile (fun ch => !isSpace ch) = []) :
    cs.dropWhile isSpace = [] := by
  induction cs with
  | nil => rfl
  | cons ch cs ih =>
    by_cases hsp : isSpace ch = true
    · simp only [List.dropWhile_cons, hsp, if_true] at h ⊢
      exact ih h
    · simp only [Bool.not_eq_true] at hsp
      simp [List.dropWhile_cons, hsp, List.takeWhile_cons] at h

/-- The tokens of a text: none when nothing follows the leading white space;
otherwise the first is the text from there up to the next white space, and the
others are the tokens of what follows it. -/
theorem tokens_cases (cs : List Char) :
    ((cs.dropWhile isSpace).takeWhile (fun ch => !isSpace ch) = [] ∧ tokens cs = []) ∨
    ((cs.dropWhile isSpace).takeWhile (fun ch => !isSpace ch) ≠ [] ∧
      tokens cs = (cs.dropWhile isSpace).takeWhile (fun ch => !isSpace ch)
        :: tokens ((cs.dropWhile isSpace).dropWhile (fun ch => !isSpace ch))) := by
  have h : tokens cs
      = (if (cs.dropWhile isSpace).takeWhile (fun ch => !isSpace ch) = [] then []
         else [(cs.dropWhile isSpace).takeWhile (fun ch => !isSpace ch)])
        ++ tokens ((cs.dropWhile isSpace).dropWhile (fun ch => !isSpace ch)) := by
    unfold tokens
    rw [tokens.go_dropWhile cs, tokens.go_eq (cs.dropWhile isSpace) []]
    simp
  by_cases he : (cs.dropWhile isSpace).takeWhile (fun ch => !isSpace ch) = []
  · left
    refine ⟨he, ?_⟩
    rw [h, if_pos he, dropWhile_isSpace_nil_of_takeWhile_nil cs he]
    rfl
  · right
    refine ⟨he, ?_⟩
    rw [h, if_neg he]
    rfl

/-- The result for a line whose first token begins with the command prefix. -/
theorem extractInputToMessage_command (ownId input : String)
    (h : (((trimTrailing input.data).dropWhile isSpace).takeWhile
      (fun ch => !isSpace ch)).head? = some commandMarker) :
    extractInputToMessage ownId input
      = { Plugin := ⟨((trimTrailing input.data).dropWhile isSpace).takeWhile
            (fun ch => !isSpace ch)⟩
          Content := ⟨(((trimTrailing input.data).dropWhile isSpace).dropWhile
            (fun ch => !isSpace ch)).dropWhile isSpace⟩
          ClientId :=
            if ((((trimTrailing input.data).dropWhile isSpace).dropWhile
                (fun ch => !isSpace ch)).dropWhile isSpace).takeWhile
                (fun ch => !isSpace ch) = [] then ownId
            else ⟨((((trimTrailing input.data).dropWhile isSpace).dropWhile
                (fun ch => !isSpace ch)).dropWhile isSpace).takeWhile
                (fun ch => !isSpace ch)⟩ } := by
  unfold extractInputToMessage
  dsimp only
  rw [if_pos h]

/-- The result for a line whose first token, if any, does not begin with the
command prefix. -/
theorem extractInputToMessage_default (ownId input : String)
    (h : (((trimTrailing input.data).dropWhile isSpace).takeWhile
      (fun ch => !isSpace ch)).head? ≠ some commandMarker) :
    extractInputToMessage ownId input
      = { Plugin := defaultPlugin
          Content := ⟨trimTrailing input.data⟩
          ClientId := ownId } := by
  unfold extractInputToMessage
  dsimp only
  rw [if_neg h]

/-- C8, on the model of the spec. For every input line, with the tokens taken
from the line trimmed at its end: if the first token begins with `/`, `Plugin`
is that token as it stands and, when a second token exists, `ClientId` is that
second token; if there is no token or the first one does not begin with `/`,
`Plugin` is `/broadcast` and `Content` is the whole trimmed line. On the four
tested lines: `Hi` gives `/broadcast`, `/help` with a newline gives `/help`,
`/users` with trailing blanks gives `/users`, and `/private ABCDEFGHIJ` gives
`/private` with `ClientId` `ABCDEFGHIJ`. -/
theorem extractInputToMessage_tokens (ownId input : String) :
    (∀ (tok : List Char) (more : List (List Char)),
      tokens (trimTrailing input.data) = tok :: more → tok.head? = some '/' →
      (extractInputToMessage ownId input).Plugin = ⟨tok⟩ ∧
      ∀ (p : List Char) (rest : List (List Char)), more = p :: rest →
        (extractInputToMessage ownId input).ClientId = ⟨p⟩) ∧
    ((∀ (tok : List Char) (more : List (List Char)),
        tokens (trimTrailing input.data) = tok :: more → tok.head? ≠ some '/') →
      (extractInputToMessage ownId input).Plugin = "/broadcast" ∧
      (extractInputToMessage ownId input).Content = ⟨trimTrailing input.data⟩) ∧
    (extractInputToMessage ownId "Hi").Plugin = "/broadcast" ∧
    (extractInputToMessage ownId "Hi").Content = "Hi" ∧
    (extractInputToMessage ownId "/help\n").Plugin = "/help" ∧
    (extractInputToMessage ownId "/users     ").Plugin = "/users" ∧
    (extractInputToMessage ownId "/private ABCDEFGHIJ").Plugin = "/private" ∧
    (extractInputToMessage ownId "/private ABCDEFGHIJ").ClientId = "ABCDEFGHIJ" := by
  refine ⟨?_, ?_, rfl, rfl, rfl, rfl, rfl, rfl⟩
  · intro tok more htok hhead
    rcases tokens_cases (trimTrailing input.data) with ⟨_, h0⟩ | ⟨hne, h1⟩
    · rw [h0] at htok
      cases htok
    · rw [h1] at htok
      simp only [List.cons.injEq] at htok
      obtain ⟨ht, hm⟩ := htok
      have hhead2 : (((trimTrailing input.data).dropWhile isSpace).takeWhile
          (fun ch => !isSpace ch)).head? = some commandMarker := by
        rw [ht]
        exact hhead
      have hcmd := extractInputToMessage_command ownId input hhead2
      refine ⟨by rw [hcmd, ht], ?_⟩
      intro p rest hmore
      rw [hmore] at hm
      rcases tokens_cases (((trimTrailing input.data).dropWhile isSpace).dropWhile
          (fun ch => !isSpace ch)) with ⟨_, h0⟩ | ⟨hne2, h2⟩
      · rw [h0] at hm
        cases hm
      · rw [h2] at hm
        simp only [List.cons.injEq] at hm
        rw [hcmd]
        dsimp only
        rw [if_neg hne2, hm.1]
  · intro hno
    have hhead : (((trimTrailing input.data).dropWhile isSpace).takeWhile
        (fun ch => !isSpace ch)).head? ≠ some commandMarker := by
      rcases tokens_cases (trimTrailing input.data) with ⟨he, _⟩ | ⟨_, h1⟩
      · rw [he]
        simp
      · exact hno _ _ h1
    rw [extractInputToMessage_default ownId input hhead]
    exact ⟨rfl, rfl⟩

/-- C8 at a concrete line with a command, a parameter and further text. -/
theorem extractInputToMessage_tokens_witness :
    tokens (trimTrailing "/private ABCDEFGHIJ how are you \n".data)
      = ["/private".data, "ABCDEFGHIJ".data, "how".data, "are".data, "you".data] ∧
    (extractInputToMessage "me" "/private ABCDEFGHIJ how are you \n").Plugin = "/private" ∧
    (extractInputToMessage "me" "/private ABCDEFGHIJ how are you \n").ClientId = "ABCDEFGHIJ" :=
  have ht : tokens (trimTrailing "/private ABCDEFGHIJ how are you \n".data)
      = ["/private".data, "ABCDEFGHIJ".data, "how".data, "are".data, "you".data] := by decide
  have h := (extractInputToMessage_tokens "me" "/private ABCDEFGHIJ how are you \n").1
    _ _ ht (by decide)
  ⟨ht, h.1, h.2 _ _ rfl⟩

end ChatClientService
